import Mathlib

/-!
Verification of the interaction logic of the text-fabric NER browser tool
(`tf/browser/ner/static/tool.js`): the token-range selection algorithm in
the `sentences` click handler, the selection initialisation `tokenInit`,
the query-clear handler, the tri-state feature-value toggles, and the
staged-diff computation `makeGoData`.

Tokens are integers (the JS code applies `parseInt` to the `t` attribute),
so we model them with `Int`.  The current selection (`tokenRange` in the
source) is a JS array that is either empty or `[start, end]`; we model it
as a `List Int` and keep the source's explicit length checks as pattern
matches.
-/

namespace NerTool

/-- The selection update performed by the `sentences` click handler
(tool.js lines 443-459) on the current `tokenRange` when a token `t` is
clicked.  An empty range becomes `[t, t]`; a two-element range `[start, end]`
is updated by the far-click / extend / tie-break cascade; any other shape is
left untouched (the source only handles lengths 0 and 2). -/
def sentencesClickRange : List Int → Int → List Int
  | [], tWordInt => [tWordInt, tWordInt]
  | [start, e], tWordInt =>
      if tWordInt < start - 5 ∨ tWordInt > e + 5 then [tWordInt, tWordInt]
      else if tWordInt ≤ start then [tWordInt, e]
      else if tWordInt ≥ e then [start, tWordInt]
      else if e - tWordInt ≤ tWordInt - start then [start, tWordInt]
      else [tWordInt, e]
  | r, _ => r

/-- `tokenInit` (tool.js lines 286-296): builds the initial `tokenRange`
from the hidden form fields `tokenstart` / `tokenend`.  A JS empty string is
falsy, so a missing/empty field is modelled as `none`; when both fields are
present the pair is swapped if inverted. -/
def tokenInit (tokenStartVal tokenEndVal : Option Int) : List Int :=
  let tokenRange :=
    match tokenStartVal, tokenEndVal with
    | some s, some e => [s, e]
    | _, _ => []
  match tokenRange with
  | [a, b] => if a > b then [b, a] else [a, b]
  | r => r

/-- A `tokenRange` value is well formed when it is empty or a two-element
ascending interval (the source never builds any other shape). -/
def rangeOK : List Int → Bool
  | [] => true
  | [a, b] => a ≤ b
  | _ => false

/-- The mutable state touched by the `sentences` click handler and the
`queryclear` handler: the selection, the `upToDate` flag, the hidden
`activeentity` field, the per-feature `<feat>_active` fields, and the `st`
marks of the end-token spans (the ScopeFilter state). -/
structure ToolState where
  tokenRange : List Int
  upToDate : Bool
  activeEntity : String
  featActive : List String
  endTokenSt : List String

/-- The token branch of the `sentences` click handler (tool.js lines
439-465, the `elem1.length` branch): sets `upToDate = false`, recomputes
the range, and blanks the `activeentity` field.  The end-token and
entity-span branches react to different DOM hits and are modelled
separately. -/
def sentencesClick (st : ToolState) (t : Int) : ToolState :=
  { st with
      upToDate := false
      tokenRange := sentencesClickRange st.tokenRange t
      activeEntity := "" }

/-- The `queryclear` click handler (tool.js lines 490-499): empties the
selection, blanks `tokenstart`/`tokenend`/`activeentity` and all
`<feat>_active` fields.  It does not touch the end-token `st` marks. -/
def queryClearClick (st : ToolState) : ToolState :=
  { st with
      tokenRange := []
      activeEntity := ""
      featActive := st.featActive.map fun _ => "" }

/-- The `st` attribute value of a modify-widget control: `"x"` (unset),
`"plus"` (staged addition) or `"minus"` (staged deletion). -/
inductive St where
  | x
  | plus
  | minus
deriving DecidableEq

/-- The `control.click` handler of the modify widget (tool.js lines
602-622).  The `occurs` attribute is `"x"` when the value does not occur on
the current selection, which enables `noMinus` mode; we model the flag as a
`Bool` with `occurs = false` standing for the attribute value `"x"`. -/
def controlClick (occurs : Bool) (currentStatus : St) : St :=
  let noMinus := !occurs
  if noMinus then
    if currentStatus = .plus then .x else .plus
  else
    if currentStatus = .plus then .minus
    else if currentStatus = .minus then .x
    else .plus

/-- The `input.keyup` handler for a free-text entry (tool.js lines
623-633): an empty text forces `"x"`, a non-empty text forces `"plus"`. -/
def inputKeyup (val : String) : St :=
  if val = "" then .x else .plus

/-- The `input.click` handler for a free-text entry (tool.js lines
634-645): with empty text the state is forced to `"x"`; with non-empty
text the state toggles between `"x"` and `"plus"`. -/
def inputClick (val : String) (currentStatus : St) : St :=
  if val = "" then .x
  else if currentStatus = .x then .plus else .x

/-- The modify widget of one feature, as read back by `makeGoData`
(tool.js lines 531-557): the value-control spans with their `st` and `val`
attributes, and the free-text inputs with their `st` attribute and current
text. -/
structure FeatWidget where
  spans : List (St × String)
  inputs : List (St × String)

/-- The staged deletions of one feature: the `val` attributes of its spans
whose `st` is `"minus"`. -/
def deletionsOf (w : FeatWidget) : List String :=
  w.spans.filterMap fun p => if p.1 = .minus then some p.2 else none

/-- The staged free-text additions of one feature: the texts of its inputs
whose `st` is `"plus"`. -/
def freeValsOf (w : FeatWidget) : List String :=
  w.inputs.filterMap fun p => if p.1 = .plus then some p.2 else none

/-- The staged additions of one feature: span values with `st = "plus"`,
followed by the `"plus"` free-text entries (the source pushes span values
first, then input values). -/
def additionsOf (w : FeatWidget) : List String :=
  (w.spans.filterMap fun p => if p.1 = .plus then some p.2 else none)
    ++ freeValsOf w

/-- The per-feature `deletions` array built by `makeGoData`, in feature
order. -/
def deletionsList (ws : List FeatWidget) : List (List String) :=
  ws.map deletionsOf

/-- The per-feature `additions` array built by `makeGoData`, in feature
order. -/
def additionsList (ws : List FeatWidget) : List (List String) :=
  ws.map additionsOf

/-- The flat `freeVals` array built by `makeGoData` (free-text `"plus"`
values across all features, in feature order). -/
def freeValsList (ws : List FeatWidget) : List String :=
  (ws.map freeValsOf).flatten

/-- `anyHasAdditions` (tool.js line 561). -/
def anyHasAdditions (ws : List FeatWidget) : Bool :=
  (additionsList ws).any fun x => x.length > 0

/-- `allHaveAdditions` (tool.js line 562). -/
def allHaveAdditions (ws : List FeatWidget) : Bool :=
  (additionsList ws).all fun x => x.length > 0

/-- `anyHasDeletions` (tool.js line 563). -/
def anyHasDeletions (ws : List FeatWidget) : Bool :=
  (deletionsList ws).any fun x => x.length > 0

/-- `allOrNothingAdditions` (tool.js line 564). -/
def allOrNothingAdditions (ws : List FeatWidget) : Bool :=
  !anyHasAdditions ws || allHaveAdditions ws

/-- `missingAdditions` (tool.js line 586): the *addition arrays* that are
empty — a list of empty lists, one per feature lacking an addition. -/
def missingAdditions (ws : List FeatWidget) : List (List String) :=
  (additionsList ws).filter fun x => x.length == 0

/-- The payload of a valid change request (`data` in the source). -/
structure GoData where
  deletions : List (List String)
  additions : List (List String)
  freeVals : List String
deriving DecidableEq

/-- The object returned by `makeGoData`: `{data}`, `{report}`, or `{}`. -/
inductive GoResult where
  | withData (d : GoData)
  | withReport (msg : String)
  | nothing
deriving DecidableEq

/-- The outcome of `makeGoData`: the returned object together with the
label written onto the `go` button (`"add"`, `"delete"`,
`"delete and add"`, `"cannot add"`, `"nothing to do"`), which names the
decided action. -/
structure GoOut where
  result : GoResult
  goLabel : String
deriving DecidableEq

/-- `makeGoData` (tool.js lines 526-600).  The report string reproduces the
source's template: `missingAdditions` is an array of (empty) arrays, and JS
`Array.join(" and ")` stringifies each element array by joining it with
`","`. -/
def makeGoData (ws : List FeatWidget) : GoOut :=
  if anyHasDeletions ws || anyHasAdditions ws then
    if allOrNothingAdditions ws then
      let actionLabel :=
        if anyHasDeletions ws && anyHasAdditions ws then "delete and add"
        else if anyHasAdditions ws then "add"
        else "delete"
      ⟨.withData ⟨deletionsList ws, additionsList ws, freeValsList ws⟩, actionLabel⟩
    else
      ⟨.withReport
          ("provide at least one green value for "
            ++ String.intercalate " and "
                ((missingAdditions ws).map (String.intercalate ","))),
        "cannot add"⟩
  else
    ⟨.nothing, "nothing to do"⟩

/-- C4: for an interval `[s, e]` and a click on a token `t` strictly inside
`(s, e)`, the boundary numerically closer to `t` moves to `t`, with ties
(`e - t = t - s`) broken toward moving the end boundary: the result is
`[s, t]` when `e - t ≤ t - s` and `[t, e]` otherwise. -/
theorem sentencesClickRange_interior (s e t : Int) (h1 : s < t) (h2 : t < e) :
    sentencesClickRange [s, e] t = if e - t ≤ t - s then [s, t] else [t, e] := by
  simp only [sentencesClickRange]
  rw [if_neg (by omega), if_neg (by omega), if_neg (by omega)]

/-- Witness for C4: from `[10, 20]`, clicking `15` gives distances `5` and
`5`, a tie, so the end boundary moves and the result is `[10, 15]`. -/
theorem sentencesClickRange_interior_witness :
    sentencesClickRange [10, 20] 15 = [10, 15] := by
  have h := sentencesClickRange_interior 10 20 15 (by decide) (by decide)
  simpa using h

/-- C5: for an interval `[s, e]` with `s ≤ e` and a click on a token `t`
with `t < s - 5` or `t > e + 5`, the selection resets to `[t, t]`. -/
theorem sentencesClickRange_far (s e t : Int) (h : s ≤ e)
    (hfar : t < s - 5 ∨ t > e + 5) :
    sentencesClickRange [s, e] t = [t, t] := by
  simp only [sentencesClickRange]
  rw [if_pos hfar]

/-- Witness for C5: from `[10, 20]`, clicking `4` (with `4 < 10 - 5`)
resets the selection to `[4, 4]`. -/
theorem sentencesClickRange_far_witness :
    sentencesClickRange [10, 20] 4 = [4, 4] :=
  sentencesClickRange_far 10 20 4 (by decide) (Or.inl (by decide))

/-- C6: every selection the program produces satisfies `start ≤ end`: the
click algorithm preserves well-formedness of the range, and `tokenInit`
normalises reversed initial bounds by swapping instead of rejecting them. -/
theorem selection_invariant (r : List Int) (t : Int) (h : rangeOK r = true) :
    rangeOK (sentencesClickRange r t) = true
    ∧ ∀ os oe : Option Int, rangeOK (tokenInit os oe) = true := by
  constructor
  · match r, h with
    | [], _ =>
        simp [sentencesClickRange, rangeOK]
    | [a, b], h =>
        have hab : a ≤ b := by simpa [rangeOK] using h
        simp only [sentencesClickRange]
        split_ifs <;> simp [rangeOK] <;> omega
  · intro os oe
    match os, oe with
    | none, _ => simp [tokenInit, rangeOK]
    | some s, none => simp [tokenInit, rangeOK]
    | some s, some e =>
        simp only [tokenInit]
        split_ifs <;> simp [rangeOK] <;> omega

/-- Witness for C6: a reversed initial pair `(20, 10)` is normalised to
`[10, 20]`, which is well formed, and a click on `4` from `[10, 20]`
yields a well-formed range. -/
theorem selection_invariant_witness :
    rangeOK (sentencesClickRange [10, 20] 4) = true
    ∧ rangeOK (tokenInit (some 20) (some 10)) = true :=
  ⟨(selection_invariant [10, 20] 4 (by decide)).1,
   (selection_invariant [10, 20] 4 (by decide)).2 (some 20) (some 10)⟩

/-- C7: clicking either boundary of an interval `[s, e]` leaves it
unchanged, and more generally clicking the same token twice in a row gives
the same interval both times (the second click is a no-op). -/
theorem sentencesClickRange_idem (s e : Int) (h : s ≤ e) :
    sentencesClickRange [s, e] s = [s, e]
    ∧ sentencesClickRange [s, e] e = [s, e]
    ∧ ∀ t : Int,
        sentencesClickRange (sentencesClickRange [s, e] t) t
          = sentencesClickRange [s, e] t := by
  refine ⟨?_, ?_, ?_⟩
  · simp only [sentencesClickRange]
    rw [if_neg (by omega), if_pos (by omega)]
  · simp only [sentencesClickRange]
    by_cases hes : e ≤ s
    · rw [if_neg (by omega), if_pos (by omega)]
      have : s = e := le_antisymm h hes
      simp [this]
    · rw [if_neg (by omega), if_neg (by omega), if_pos (by omega)]
  · intro t
    by_cases hfar : t < s - 5 ∨ t > e + 5
    · rw [show sentencesClickRange [s, e] t = [t, t] by
        simp only [sentencesClickRange]; rw [if_pos hfar]]
      simp only [sentencesClickRange]
      rw [if_neg (by omega), if_pos (by omega)]
    · by_cases h1 : t ≤ s
      · rw [show sentencesClickRange [s, e] t = [t, e] by
          simp only [sentencesClickRange]
          rw [if_neg hfar, if_pos h1]]
        simp only [sentencesClickRange]
        rw [if_neg (by omega), if_pos (by omega)]
      · by_cases h2 : t ≥ e
        · rw [show sentencesClickRange [s, e] t = [s, t] by
            simp only [sentencesClickRange]
            rw [if_neg hfar, if_neg h1, if_pos h2]]
          simp only [sentencesClickRange]
          rw [if_neg (by omega), if_neg (by omega), if_pos (by omega)]
        · by_cases h3 : e - t ≤ t - s
          · rw [show sentencesClickRange [s, e] t = [s, t] by
              simp only [sentencesClickRange]
              rw [if_neg hfar, if_neg h1, if_neg h2, if_pos h3]]
            simp only [sentencesClickRange]
            rw [if_neg (by omega), if_neg (by omega), if_pos (by omega)]
          · rw [show sentencesClickRange [s, e] t = [t, e] by
              simp only [sentencesClickRange]
              rw [if_neg hfar, if_neg h1, if_neg h2, if_neg h3]]
            simp only [sentencesClickRange]
            rw [if_neg (by omega), if_pos (by omega)]

/-- Witness for C7: clicking `10` or `20` on `[10, 20]` leaves it
unchanged, and re-clicking `15` after clicking `15` changes nothing. -/
theorem sentencesClickRange_idem_witness :
    sentencesClickRange [10, 20] 10 = [10, 20]
    ∧ sentencesClickRange [10, 20] 20 = [10, 20]
    ∧ sentencesClickRange (sentencesClickRange [10, 20] 15) 15
        = sentencesClickRange [10, 20] 15 :=
  ⟨(sentencesClickRange_idem 10 20 (by decide)).1,
   (sentencesClickRange_idem 10 20 (by decide)).2.1,
   (sentencesClickRange_idem 10 20 (by decide)).2.2 15⟩

/-- C8: every click on a token — whichever case of the selection algorithm
applies, including ones that leave the interval unchanged — blanks the
active-entity association and clears the `upToDate` flag used by the
query-display gating. -/
theorem sentencesClick_clears (st : ToolState) (t : Int) :
    (sentencesClick st t).activeEntity = "" ∧ (sentencesClick st t).upToDate = false :=
  ⟨rfl, rfl⟩

/-- C9: the query-clear handler resets the selection to the empty interval
and leaves every ScopeFilter end-token mark exactly as it was. -/
theorem queryClearClick_frame (st : ToolState) :
    (queryClearClick st).tokenRange = [] ∧ (queryClearClick st).endTokenSt = st.endTokenSt :=
  ⟨rfl, rfl⟩

/-- A feature widget holding exactly one staged addition (a span with
`st = "plus"`). -/
def widgetA : FeatWidget := ⟨[(.plus, "per")], []⟩

/-- A feature widget with one candidate value and nothing staged. -/
def widgetB : FeatWidget := ⟨[(.x, "org")], []⟩

/-- A feature widget holding exactly one staged deletion. -/
def widgetDel : FeatWidget := ⟨[(.minus, "org")], []⟩

/-- A feature widget holding one staged addition and one staged deletion. -/
def widgetAddDel : FeatWidget := ⟨[(.plus, "per"), (.minus, "org")], []⟩

/-- C1 (evaluation at the failing input): with two features where the first
has one staged addition and the second none, `missingAdditions` is `[[]]` —
a list holding the second feature's *empty addition array*, not the feature
name — and the report string ends without naming any feature, because the
source joins the empty arrays themselves. -/
theorem makeGoData_missing_eval :
    missingAdditions [widgetA, widgetB] = [[]]
    ∧ makeGoData [widgetA, widgetB]
        = ⟨.withReport "provide at least one green value for ", "cannot add"⟩ :=
  ⟨rfl, rfl⟩

/-- C2: `makeGoData` classifies the staged diff by the labels it writes on
the `go` button: "nothing to do" when no additions and no deletions are
staged anywhere; "delete and add" (Replace) when both are present and every
feature has an addition; "add" when only additions are present and every
feature has one; "delete" when only deletions are present — deletions-only
requests are never rejected by the all-or-nothing rule. -/
theorem makeGoData_classification (ws : List FeatWidget) :
    ((anyHasAdditions ws = false ∧ anyHasDeletions ws = false) →
        (makeGoData ws).goLabel = "nothing to do")
    ∧ ((anyHasAdditions ws = true ∧ anyHasDeletions ws = true
          ∧ allHaveAdditions ws = true) →
        (makeGoData ws).goLabel = "delete and add")
    ∧ ((anyHasAdditions ws = true ∧ anyHasDeletions ws = false
          ∧ allHaveAdditions ws = true) →
        (makeGoData ws).goLabel = "add")
    ∧ ((anyHasAdditions ws = false ∧ anyHasDeletions ws = true) →
        (makeGoData ws).goLabel = "delete") := by
  refine ⟨fun h => ?_, fun h => ?_, fun h => ?_, fun h => ?_⟩
  · obtain ⟨ha, hd⟩ := h
    simp [makeGoData, allOrNothingAdditions, ha, hd]
  · obtain ⟨ha, hd, hall⟩ := h
    simp [makeGoData, allOrNothingAdditions, ha, hd, hall]
  · obtain ⟨ha, hd, hall⟩ := h
    simp [makeGoData, allOrNothingAdditions, ha, hd, hall]
  · obtain ⟨ha, hd⟩ := h
    simp [makeGoData, allOrNothingAdditions, ha, hd]

/-- Witness for C2: one concrete widget collection per outcome. -/
theorem makeGoData_classification_witness :
    (makeGoData [widgetB]).goLabel = "nothing to do"
    ∧ (makeGoData [widgetAddDel, widgetA]).goLabel = "delete and add"
    ∧ (makeGoData [widgetA, widgetA]).goLabel = "add"
    ∧ (makeGoData [widgetDel, widgetB]).goLabel = "delete" :=
  ⟨(makeGoData_classification [widgetB]).1 ⟨rfl, rfl⟩,
   (makeGoData_classification [widgetAddDel, widgetA]).2.1 ⟨rfl, rfl, rfl⟩,
   (makeGoData_classification [widgetA, widgetA]).2.2.1 ⟨rfl, rfl, rfl⟩,
   (makeGoData_classification [widgetDel, widgetB]).2.2.2 ⟨rfl, rfl⟩⟩

/-- C3: with `occurs = true` a value control cycles
`Unset → MarkedAdd → MarkedDelete → Unset`; with `occurs = false` it cycles
`Unset → MarkedAdd → Unset`; and with `occurs = false` any number of
toggles starting from `Unset` leaves the state in `{Unset, MarkedAdd}`, so
`MarkedDelete` is never reached. -/
theorem controlClick_cycles :
    (controlClick true .x = .plus ∧ controlClick true .plus = .minus
      ∧ controlClick true .minus = .x)
    ∧ (controlClick false .x = .plus ∧ controlClick false .plus = .x)
    ∧ ∀ n : Nat,
        (controlClick false)^[n] St.x = St.x
        ∨ (controlClick false)^[n] St.x = St.plus := by
  refine ⟨⟨rfl, rfl, rfl⟩, ⟨rfl, rfl⟩, ?_⟩
  intro n
  induction n with
  | zero => exact Or.inl rfl
  | succ n ih =>
      rw [Function.iterate_succ_apply']
      rcases ih with h | h <;> rw [h] <;> decide

/-- C10: a click on a free-text entry with non-empty text toggles its state
between `MarkedAdd` and `Unset` (and from `MarkedDelete` it also goes to
`Unset`); a click with empty text always yields `Unset`.  Consequently,
right after `keyup` (setText) on non-empty text the state is `MarkedAdd`,
but one further click leaves a non-empty entry in `Unset`: "non-empty text
implies MarkedAdd" is a postcondition of setText, not an invariant. -/
theorem inputClick_toggle (val : String) (h : val ≠ "") :
    inputClick val .x = .plus ∧ inputClick val .plus = .x
    ∧ inputClick val .minus = .x
    ∧ inputClick "" .x = .x ∧ inputClick "" .plus = .x ∧ inputClick "" .minus = .x
    ∧ inputKeyup val = .plus ∧ inputClick val (inputKeyup val) = .x := by
  simp [inputClick, inputKeyup, h]

/-- Witness for C10 at the non-empty text `"a"`. -/
theorem inputClick_toggle_witness :
    inputClick "a" .x = .plus ∧ inputClick "a" .plus = .x
    ∧ inputKeyup "a" = .plus ∧ inputClick "a" (inputKeyup "a") = .x :=
  ⟨(inputClick_toggle "a" (by decide)).1,
   (inputClick_toggle "a" (by decide)).2.1,
   (inputClick_toggle "a" (by decide)).2.2.2.2.2.2.1,
   (inputClick_toggle "a" (by decide)).2.2.2.2.2.2.2⟩

end NerTool
